import Mathlib

/-!
Verification of the evaluator-optimizer feedback loop (Treatment Process
Optimization pattern).  The data model and the node functions
(`evaluate_process`, `optimize_process`, `should_continue_optimization`,
the `ProcessEvaluation` schema) follow the repository's source; the loop
driver that wires them together is modelled from the design spec, which
describes the controller state machine.
-/

namespace TreatmentOptimization

/-- Schema for water treatment process evaluation, following the source's
`ProcessEvaluation` model: an integer performance score constrained to
[1,10], two free-text assessments, a two-valued optimization status
(`"optimized"` or `"needs_improvement"`), and free-text recommendations. -/
structure ProcessEvaluation where
  performance_score : Int
  water_quality_assessment : String
  efficiency_assessment : String
  optimization_status : String
  improvement_recommendations : String
deriving DecidableEq

/-- Raw (unvalidated) evaluator response, before schema validation: every
field may be missing. -/
structure RawEvaluation where
  performance_score : Option Int
  water_quality_assessment : Option String
  efficiency_assessment : Option String
  optimization_status : Option String
  improvement_recommendations : Option String
deriving DecidableEq

/-- Schema validation at the Evaluator boundary, following the source's
field constraints (`ge=1`, `le=10` on the score; a two-value literal type
for the status; all fields required): a missing field, an out-of-range
score, or a status outside the closed set is rejected as a
`SchemaViolation`; an accepted verdict carries the raw values unchanged. -/
def parseProcessEvaluation (raw : RawEvaluation) : Except String ProcessEvaluation :=
  match raw.performance_score, raw.water_quality_assessment, raw.efficiency_assessment,
        raw.optimization_status, raw.improvement_recommendations with
  | some score, some wq, some eff, some status, some rec =>
      if 1 ≤ score ∧ score ≤ 10 then
        if status = "optimized" ∨ status = "needs_improvement" then
          Except.ok ⟨score, wq, eff, status, rec⟩
        else Except.error "SchemaViolation"
      else Except.error "SchemaViolation"
  | _, _, _, _, _ => Except.error "SchemaViolation"

/-- One entry of the optimization history, as appended by the source's
`evaluate_process`: the iteration number, the configuration, and the
evaluation stored in the state at append time (an `Option`, since the
source reads it with `state.get`). -/
structure HistoryEntry where
  iteration : Nat
  configuration : String
  evaluation : Option ProcessEvaluation
deriving DecidableEq

/-- The `OptimizationState` record threaded through the loop, following
the source's state keys: current configuration, iteration count, the
iteration cap, the latest evaluation (absent before the first
evaluation), and the optimization history. -/
structure OptimizationState where
  process_configuration : String
  iteration_count : Nat
  max_iterations : Nat
  evaluation : Option ProcessEvaluation
  optimization_history : List HistoryEntry
deriving DecidableEq

/-- Initial state of a run: iteration count 0, no evaluation, empty
history. -/
def initState (candidate : String) (maxIter : Nat) : OptimizationState :=
  ⟨candidate, 0, maxIter, none, []⟩

/-- The evaluation node, following the source's `evaluate_process`: if
`iteration_count > 0` it appends `{iteration, configuration, evaluation}`
(the evaluation currently stored, i.e. the previous verdict) to the
history; the initial state is never appended.  The verdict produced by
the evaluator call then replaces `evaluation` (the source stores the
structured output of the evaluator invocation back into the state, per
the spec's `recordEvaluation`). -/
def evaluate_process (state : OptimizationState) (verdict : ProcessEvaluation) :
    OptimizationState :=
  let current_history :=
    if state.iteration_count > 0 then
      state.optimization_history ++
        [⟨state.iteration_count, state.process_configuration, state.evaluation⟩]
    else state.optimization_history
  { state with optimization_history := current_history, evaluation := some verdict }

/-- The optimization node: the optimizer's revised configuration replaces
the current one.  Modelled from the spec: `applyRevision` sets the new
candidate and increments `iterationCount` by exactly 1 (the source's
`optimize_process` snippet shows the prompt construction only). -/
def optimize_process (state : OptimizationState) (newConfig : String) :
    OptimizationState :=
  { state with process_configuration := newConfig,
               iteration_count := state.iteration_count + 1 }

/-- The continuation decision, following the source's
`should_continue_optimization`: the iteration cap is checked first and
returns "Complete" without touching the evaluation; otherwise the stored
evaluation's status is read (`none` models the source's attribute access
on an absent evaluation, which would fail) and compared with
"optimized". -/
def should_continue_optimization (state : OptimizationState) : Option String :=
  if state.iteration_count ≥ state.max_iterations then some "Complete"
  else
    match state.evaluation with
    | none => none
    | some ev => if ev.optimization_status = "optimized" then some "Complete"
                 else some "Continue"

/-- Replace the score of the stored evaluation (if any), leaving every
other field alone; used to state that the score does not influence the
continuation decision. -/
def setScore (state : OptimizationState) (n : Int) : OptimizationState :=
  { state with evaluation :=
      state.evaluation.map (fun ev => { ev with performance_score := n }) }

/-- How a run ended: `done` is the controller's terminal state; the other
two flag conditions proved unreachable (fuel exhaustion with adequate
fuel, a continuation decision on an absent evaluation). -/
inductive LoopStatus where
  | done
  | outOfFuel
  | evalMissing
deriving DecidableEq

/-- Result of a run: the final state, the number of Evaluator and
Optimizer invocations performed, the list of revised candidates produced
by the Optimizer (in order), and how the run ended. -/
structure RunResult where
  finalState : OptimizationState
  evalCalls : Nat
  optCalls : Nat
  revisions : List String
  status : LoopStatus
deriving DecidableEq

/-- Loop driver.  Modelled from the spec: the controller state machine
`EVALUATING → decision → (OPTIMIZING → EVALUATING) | DONE` (the source
delegates this wiring to a graph framework's conditional edges, calling
the three node functions above).  Each round invokes the Evaluator,
records the verdict via `evaluate_process`, and consults
`should_continue_optimization`; on "Continue" it invokes the Optimizer,
applies the revision, and repeats.  `fuel` bounds the recursion depth for
well-foundedness; with fuel at least `max_iterations` the `outOfFuel`
outcome is proved unreachable below. -/
def loopAux (evaluator : OptimizationState → ProcessEvaluation)
    (optimizer : OptimizationState → String) :
    Nat → OptimizationState → Nat → Nat → List String → RunResult
  | 0, state, ec, oc, revs =>
      if should_continue_optimization (evaluate_process state (evaluator state)) = none then
        RunResult.mk (evaluate_process state (evaluator state)) (ec + 1) oc revs
          LoopStatus.evalMissing
      else if should_continue_optimization (evaluate_process state (evaluator state))
          = some "Continue" then
        RunResult.mk (evaluate_process state (evaluator state)) (ec + 1) oc revs
          LoopStatus.outOfFuel
      else
        RunResult.mk (evaluate_process state (evaluator state)) (ec + 1) oc revs
          LoopStatus.done
  | fuel + 1, state, ec, oc, revs =>
      if should_continue_optimization (evaluate_process state (evaluator state)) = none then
        RunResult.mk (evaluate_process state (evaluator state)) (ec + 1) oc revs
          LoopStatus.evalMissing
      else if should_continue_optimization (evaluate_process state (evaluator state))
          = some "Continue" then
        loopAux evaluator optimizer fuel
          (optimize_process (evaluate_process state (evaluator state))
            (optimizer (evaluate_process state (evaluator state))))
          (ec + 1) (oc + 1)
          (revs ++ [optimizer (evaluate_process state (evaluator state))])
      else
        RunResult.mk (evaluate_process state (evaluator state)) (ec + 1) oc revs
          LoopStatus.done

/-- Run the loop from the initial state with fuel `maxIter`. -/
def runLoop (evaluator : OptimizationState → ProcessEvaluation)
    (optimizer : OptimizationState → String)
    (candidate : String) (maxIter : Nat) : RunResult :=
  loopAux evaluator optimizer maxIter (initState candidate maxIter) 0 0 []

/-- Entry point, modelled from the spec's `runOptimization`: fails with
`ConfigError` when `maxIterations < 1`, otherwise runs the loop. -/
def runOptimization (evaluator : OptimizationState → ProcessEvaluation)
    (optimizer : OptimizationState → String)
    (candidate : String) (maxIter : Nat) : Except String RunResult :=
  if maxIter < 1 then Except.error "ConfigError"
  else Except.ok (runLoop evaluator optimizer candidate maxIter)

/-- Fallible loop driver: the evaluator returns a raw response that must
pass schema validation before being recorded; a `SchemaViolation` (or any
parse error) aborts the run and is surfaced unchanged, per the spec's
propagation policy.  Otherwise identical to `loopAux`. -/
def loopAuxE (rawEval : OptimizationState → RawEvaluation)
    (optimizer : OptimizationState → String) :
    Nat → OptimizationState → Nat → Nat → List String → Except String RunResult
  | 0, state, ec, oc, revs =>
      match parseProcessEvaluation (rawEval state) with
      | Except.error e => Except.error e
      | Except.ok v =>
          if should_continue_optimization (evaluate_process state v) = none then
            Except.ok (RunResult.mk (evaluate_process state v) (ec + 1) oc revs
              LoopStatus.evalMissing)
          else if should_continue_optimization (evaluate_process state v)
              = some "Continue" then
            Except.ok (RunResult.mk (evaluate_process state v) (ec + 1) oc revs
              LoopStatus.outOfFuel)
          else
            Except.ok (RunResult.mk (evaluate_process state v) (ec + 1) oc revs
              LoopStatus.done)
  | fuel + 1, state, ec, oc, revs =>
      match parseProcessEvaluation (rawEval state) with
      | Except.error e => Except.error e
      | Except.ok v =>
          if should_continue_optimization (evaluate_process state v) = none then
            Except.ok (RunResult.mk (evaluate_process state v) (ec + 1) oc revs
              LoopStatus.evalMissing)
          else if should_continue_optimization (evaluate_process state v)
              = some "Continue" then
            loopAuxE rawEval optimizer fuel
              (optimize_process (evaluate_process state v)
                (optimizer (evaluate_process state v)))
              (ec + 1) (oc + 1)
              (revs ++ [optimizer (evaluate_process state v)])
          else
            Except.ok (RunResult.mk (evaluate_process state v) (ec + 1) oc revs
              LoopStatus.done)

/-- Fallible entry point: `ConfigError` below the minimum cap, otherwise
the fallible loop from the initial state. -/
def runOptimizationE (rawEval : OptimizationState → RawEvaluation)
    (optimizer : OptimizationState → String)
    (candidate : String) (maxIter : Nat) : Except String RunResult :=
  if maxIter < 1 then Except.error "ConfigError"
  else loopAuxE rawEval optimizer maxIter (initState candidate maxIter) 0 0 []

/-- Concrete verdict with status "needs_improvement", for concrete runs. -/
def needsImprovementVerdict : ProcessEvaluation :=
  ⟨5, "wq", "eff", "needs_improvement", "rec"⟩

/-- Concrete verdict with status "optimized", for concrete runs. -/
def optimizedVerdict : ProcessEvaluation :=
  ⟨9, "wq", "eff", "optimized", "none needed"⟩

/-- Evaluator stub that always returns "needs_improvement". -/
def stubEvaluator : OptimizationState → ProcessEvaluation :=
  fun _ => needsImprovementVerdict

/-- Evaluator stub that always returns "optimized". -/
def optimizedEvaluator : OptimizationState → ProcessEvaluation :=
  fun _ => optimizedVerdict

/-- Optimizer stub that appends a marker to the configuration. -/
def stubOptimizer : OptimizationState → String :=
  fun s => s.process_configuration ++ "x"

/-- Concrete state sitting exactly at the iteration cap, with a
"needs_improvement" evaluation recorded. -/
def stateAtCap : OptimizationState :=
  ⟨"c", 2, 2, some needsImprovementVerdict, []⟩

/-- Concrete state strictly below the iteration cap, with a
"needs_improvement" evaluation recorded. -/
def stateBelowCap : OptimizationState :=
  ⟨"c", 1, 3, some needsImprovementVerdict, []⟩

/-- Raw evaluator response with all fields present and in range. -/
def rawGood : RawEvaluation :=
  ⟨some 7, some "wq", some "eff", some "needs_improvement", some "rec"⟩

/-- Raw evaluator response with the status field missing. -/
def rawMissingStatus : RawEvaluation :=
  ⟨some 7, some "wq", some "eff", none, some "rec"⟩

/-- Raw evaluator response with an out-of-range score. -/
def rawOutOfRange : RawEvaluation :=
  ⟨some 11, some "wq", some "eff", some "needs_improvement", some "rec"⟩

/-- Raw evaluator stub that always returns a response missing its status. -/
def badRawEvaluator : OptimizationState → RawEvaluation :=
  fun _ => rawMissingStatus

/-! Helper lemmas about the node functions. -/

@[simp]
theorem evaluate_process_evaluation (s : OptimizationState) (v : ProcessEvaluation) :
    (evaluate_process s v).evaluation = some v := rfl

@[simp]
theorem evaluate_process_iteration (s : OptimizationState) (v : ProcessEvaluation) :
    (evaluate_process s v).iteration_count = s.iteration_count := rfl

@[simp]
theorem evaluate_process_max (s : OptimizationState) (v : ProcessEvaluation) :
    (evaluate_process s v).max_iterations = s.max_iterations := rfl

@[simp]
theorem evaluate_process_config (s : OptimizationState) (v : ProcessEvaluation) :
    (evaluate_process s v).process_configuration = s.process_configuration := rfl

theorem evaluate_process_hist (s : OptimizationState) (v : ProcessEvaluation) :
    (evaluate_process s v).optimization_history =
      if s.iteration_count > 0 then
        s.optimization_history ++
          [⟨s.iteration_count, s.process_configuration, s.evaluation⟩]
      else s.optimization_history := rfl

@[simp]
theorem optimize_process_iteration (s : OptimizationState) (c : String) :
    (optimize_process s c).iteration_count = s.iteration_count + 1 := rfl

@[simp]
theorem optimize_process_max (s : OptimizationState) (c : String) :
    (optimize_process s c).max_iterations = s.max_iterations := rfl

@[simp]
theorem optimize_process_config (s : OptimizationState) (c : String) :
    (optimize_process s c).process_configuration = c := rfl

@[simp]
theorem optimize_process_hist (s : OptimizationState) (c : String) :
    (optimize_process s c).optimization_history = s.optimization_history := rfl

theorem should_continue_of_cap (s : OptimizationState)
    (h : s.max_iterations ≤ s.iteration_count) :
    should_continue_optimization s = some "Complete" := by
  unfold should_continue_optimization
  simp [h]

theorem should_continue_of_lt (s : OptimizationState) (ev : ProcessEvaluation)
    (hlt : s.iteration_count < s.max_iterations) (he : s.evaluation = some ev) :
    should_continue_optimization s =
      some (if ev.optimization_status = "optimized" then "Complete" else "Continue") := by
  unfold should_continue_optimization
  rw [if_neg (by omega), he]
  by_cases hst : ev.optimization_status = "optimized" <;> simp [hst]

theorem continue_imp_lt (s : OptimizationState)
    (h : should_continue_optimization s = some "Continue") :
    s.iteration_count < s.max_iterations := by
  by_contra hc
  rw [should_continue_of_cap s (by omega)] at h
  simp at h

theorem should_continue_ne_none (s : OptimizationState)
    (he : s.evaluation.isSome) :
    (should_continue_optimization s).isSome := by
  unfold should_continue_optimization
  by_cases h : s.iteration_count ≥ s.max_iterations
  · simp [h]
  · rw [if_neg h]
    rcases Option.isSome_iff_exists.mp he with ⟨ev, hev⟩
    rw [hev]
    by_cases hst : ev.optimization_status = "optimized" <;> simp [hst]

theorem should_continue_setScore (s : OptimizationState) (n : Int) :
    should_continue_optimization (setScore s n) = should_continue_optimization s := by
  unfold should_continue_optimization setScore
  cases h : s.evaluation <;> simp [h]

/-! One-step unfolding lemmas for the loop driver. -/

theorem loopAux_eq_halt (e : OptimizationState → ProcessEvaluation)
    (o : OptimizationState → String) (fuel : Nat) (s : OptimizationState)
    (ec oc : Nat) (revs : List String)
    (h0 : should_continue_optimization (evaluate_process s (e s)) ≠ none)
    (h1 : should_continue_optimization (evaluate_process s (e s)) ≠ some "Continue") :
    loopAux e o fuel s ec oc revs =
      RunResult.mk (evaluate_process s (e s)) (ec + 1) oc revs LoopStatus.done := by
  cases fuel <;> · unfold loopAux; simp [h0, h1]

theorem loopAux_eq_done (e : OptimizationState → ProcessEvaluation)
    (o : OptimizationState → String) (fuel : Nat) (s : OptimizationState)
    (ec oc : Nat) (revs : List String)
    (h : should_continue_optimization (evaluate_process s (e s)) = some "Complete") :
    loopAux e o fuel s ec oc revs =
      RunResult.mk (evaluate_process s (e s)) (ec + 1) oc revs LoopStatus.done := by
  apply loopAux_eq_halt <;> simp [h]

theorem loopAux_eq_missing (e : OptimizationState → ProcessEvaluation)
    (o : OptimizationState → String) (fuel : Nat) (s : OptimizationState)
    (ec oc : Nat) (revs : List String)
    (h : should_continue_optimization (evaluate_process s (e s)) = none) :
    loopAux e o fuel s ec oc revs =
      RunResult.mk (evaluate_process s (e s)) (ec + 1) oc revs LoopStatus.evalMissing := by
  cases fuel <;> · unfold loopAux; simp [h]

theorem loopAux_eq_continue (e : OptimizationState → ProcessEvaluation)
    (o : OptimizationState → String) (fuel : Nat) (s : OptimizationState)
    (ec oc : Nat) (revs : List String)
    (h : should_continue_optimization (evaluate_process s (e s)) = some "Continue") :
    loopAux e o (fuel + 1) s ec oc revs =
      loopAux e o fuel
        (optimize_process (evaluate_process s (e s)) (o (evaluate_process s (e s))))
        (ec + 1) (oc + 1) (revs ++ [o (evaluate_process s (e s))]) := by
  conv_lhs => unfold loopAux
  rw [h]
  simp

theorem loopAux_zero_continue (e : OptimizationState → ProcessEvaluation)
    (o : OptimizationState → String) (s : OptimizationState)
    (ec oc : Nat) (revs : List String)
    (h : should_continue_optimization (evaluate_process s (e s)) = some "Continue") :
    loopAux e o 0 s ec oc revs =
      RunResult.mk (evaluate_process s (e s)) (ec + 1) oc revs LoopStatus.outOfFuel := by
  unfold loopAux
  rw [h]
  simp

theorem post_eval_decision_ne_none (e : OptimizationState → ProcessEvaluation)
    (s : OptimizationState) :
    should_continue_optimization (evaluate_process s (e s)) ≠ none := by
  have h := should_continue_ne_none (evaluate_process s (e s)) (by simp)
  intro hn
  rw [hn] at h
  simp at h

/-! Run-level lemmas, proved by induction on the fuel. -/

theorem loop_status_not_missing (e : OptimizationState → ProcessEvaluation)
    (o : OptimizationState → String) (fuel : Nat) (s : OptimizationState)
    (ec oc : Nat) (revs : List String) :
    (loopAux e o fuel s ec oc revs).status ≠ LoopStatus.evalMissing := by
  induction fuel generalizing s ec oc revs with
  | zero =>
    by_cases hc : should_continue_optimization (evaluate_process s (e s)) = some "Continue"
    · rw [loopAux_zero_continue e o s ec oc revs hc]
      simp
    · rw [loopAux_eq_halt e o 0 s ec oc revs (post_eval_decision_ne_none e s) hc]
      simp
  | succ n ih =>
    by_cases hc : should_continue_optimization (evaluate_process s (e s)) = some "Continue"
    · rw [loopAux_eq_continue e o n s ec oc revs hc]
      exact ih _ _ _ _
    · rw [loopAux_eq_halt e o (n + 1) s ec oc revs (post_eval_decision_ne_none e s) hc]
      simp

theorem loop_done_of_fuel (e : OptimizationState → ProcessEvaluation)
    (o : OptimizationState → String) (fuel : Nat) (s : OptimizationState)
    (ec oc : Nat) (revs : List String)
    (h : s.max_iterations ≤ s.iteration_count + fuel) :
    (loopAux e o fuel s ec oc revs).status = LoopStatus.done := by
  induction fuel generalizing s ec oc revs with
  | zero =>
    by_cases hc : should_continue_optimization (evaluate_process s (e s)) = some "Continue"
    · have hlt := continue_imp_lt _ hc
      simp at hlt
      omega
    · rw [loopAux_eq_halt e o 0 s ec oc revs (post_eval_decision_ne_none e s) hc]
  | succ n ih =>
    by_cases hc : should_continue_optimization (evaluate_process s (e s)) = some "Continue"
    · rw [loopAux_eq_continue e o n s ec oc revs hc]
      apply ih
      simp
      omega
    · rw [loopAux_eq_halt e o (n + 1) s ec oc revs (post_eval_decision_ne_none e s) hc]

theorem loop_counts (e : OptimizationState → ProcessEvaluation)
    (o : OptimizationState → String) (fuel : Nat) (s : OptimizationState)
    (ec oc : Nat) (revs : List String) :
    ∃ k, k ≤ fuel ∧
      (loopAux e o fuel s ec oc revs).optCalls = oc + k ∧
      (loopAux e o fuel s ec oc revs).evalCalls = ec + k + 1 ∧
      (loopAux e o fuel s ec oc revs).finalState.iteration_count = s.iteration_count + k ∧
      (loopAux e o fuel s ec oc revs).revisions.length = revs.length + k ∧
      (loopAux e o fuel s ec oc revs).finalState.max_iterations = s.max_iterations := by
  induction fuel generalizing s ec oc revs with
  | zero =>
    refine ⟨0, le_refl 0, ?_⟩
    by_cases hc : should_continue_optimization (evaluate_process s (e s)) = some "Continue"
    · rw [loopAux_zero_continue e o s ec oc revs hc]
      simp
    · rw [loopAux_eq_halt e o 0 s ec oc revs (post_eval_decision_ne_none e s) hc]
      simp
  | succ n ih =>
    by_cases hc : should_continue_optimization (evaluate_process s (e s)) = some "Continue"
    · rw [loopAux_eq_continue e o n s ec oc revs hc]
      obtain ⟨k, hk, h1, h2, h3, h4, h5⟩ := ih
        (optimize_process (evaluate_process s (e s)) (o (evaluate_process s (e s))))
        (ec + 1) (oc + 1) (revs ++ [o (evaluate_process s (e s))])
      refine ⟨k + 1, by omega, by omega, by omega, ?_, ?_, ?_⟩
      · rw [h3]; simp; omega
      · rw [h4]; simp; omega
      · rw [h5]; simp
    · rw [loopAux_eq_halt e o (n + 1) s ec oc revs (post_eval_decision_ne_none e s) hc]
      exact ⟨0, by omega, by simp, by simp, by simp, by simp, by simp⟩

theorem loop_fuel_stable (e : OptimizationState → ProcessEvaluation)
    (o : OptimizationState → String) (m fuel : Nat) (s : OptimizationState)
    (ec oc : Nat) (revs : List String)
    (h : s.max_iterations ≤ s.iteration_count + fuel) :
    loopAux e o (fuel + m) s ec oc revs = loopAux e o fuel s ec oc revs := by
  induction fuel generalizing s ec oc revs with
  | zero =>
    have hcap : should_continue_optimization (evaluate_process s (e s)) = some "Complete" := by
      apply should_continue_of_cap
      simp
      omega
    rw [loopAux_eq_done e o (0 + m) s ec oc revs hcap, loopAux_eq_done e o 0 s ec oc revs hcap]
  | succ n ih =>
    by_cases hc : should_continue_optimization (evaluate_process s (e s)) = some "Continue"
    · have heq : n + 1 + m = (n + m) + 1 := by omega
      rw [heq, loopAux_eq_continue e o (n + m) s ec oc revs hc,
          loopAux_eq_continue e o n s ec oc revs hc]
      apply ih
      simp
      omega
    · rw [loopAux_eq_halt e o (n + 1 + m) s ec oc revs (post_eval_decision_ne_none e s) hc,
          loopAux_eq_halt e o (n + 1) s ec oc revs (post_eval_decision_ne_none e s) hc]

theorem post_eval_history (e : OptimizationState → ProcessEvaluation)
    (s : OptimizationState) (revs : List String)
    (hA : revs.length = s.iteration_count)
    (hB : s.optimization_history.map HistoryEntry.iteration =
      List.range' 1 (s.iteration_count - 1))
    (hC : s.iteration_count ≠ 0 →
      s.optimization_history.map HistoryEntry.configuration ++
        [s.process_configuration] = revs) :
    (evaluate_process s (e s)).optimization_history.map HistoryEntry.iteration =
        List.range' 1 s.iteration_count ∧
      (evaluate_process s (e s)).optimization_history.map HistoryEntry.configuration
        = revs := by
  rw [evaluate_process_hist]
  rcases Nat.eq_zero_or_pos s.iteration_count with h0 | hpos
  · rw [h0] at hB
    simp at hB
    have hrev : revs = [] := List.length_eq_zero.mp (by rw [hA, h0])
    rw [if_neg (by omega), h0]
    simp [hB, hrev]
  · rw [if_pos hpos]
    constructor
    · rw [List.map_append, hB]
      simp
      have h2 := List.range'_1_concat 1 (s.iteration_count - 1)
      rw [Nat.sub_add_cancel hpos] at h2
      have h3 : 1 + (s.iteration_count - 1) = s.iteration_count := by omega
      rw [h3] at h2
      rw [h2]
    · rw [List.map_append]
      simp
      exact hC (by omega)

theorem loop_history (e : OptimizationState → ProcessEvaluation)
    (o : OptimizationState → String) (fuel : Nat) (s : OptimizationState)
    (ec oc : Nat) (revs : List String)
    (hA : revs.length = s.iteration_count)
    (hB : s.optimization_history.map HistoryEntry.iteration =
      List.range' 1 (s.iteration_count - 1))
    (hC : s.iteration_count ≠ 0 →
      s.optimization_history.map HistoryEntry.configuration ++
        [s.process_configuration] = revs) :
    (loopAux e o fuel s ec oc revs).finalState.optimization_history.map
        HistoryEntry.iteration =
      List.range' 1 (loopAux e o fuel s ec oc revs).finalState.iteration_count ∧
    (loopAux e o fuel s ec oc revs).finalState.optimization_history.map
        HistoryEntry.configuration =
      (loopAux e o fuel s ec oc revs).revisions := by
  induction fuel generalizing s ec oc revs with
  | zero =>
    obtain ⟨hi, hcf⟩ := post_eval_history e s revs hA hB hC
    by_cases hc : should_continue_optimization (evaluate_process s (e s)) = some "Continue"
    · rw [loopAux_zero_continue e o s ec oc revs hc]
      exact ⟨by simpa using hi, by simpa using hcf⟩
    · rw [loopAux_eq_halt e o 0 s ec oc revs (post_eval_decision_ne_none e s) hc]
      exact ⟨by simpa using hi, by simpa using hcf⟩
  | succ n ih =>
    obtain ⟨hi, hcf⟩ := post_eval_history e s revs hA hB hC
    by_cases hc : should_continue_optimization (evaluate_process s (e s)) = some "Continue"
    · rw [loopAux_eq_continue e o n s ec oc revs hc]
      apply ih
      · simp [hA]
      · simpa using hi
      · intro _
        simp
        exact hcf
    · rw [loopAux_eq_halt e o (n + 1) s ec oc revs (post_eval_decision_ne_none e s) hc]
      exact ⟨by simpa using hi, by simpa using hcf⟩

/-- C1: the continuation decision checks the iteration cap first and the
quality status second: with an evaluation present, a state at or past the
cap decides "Complete" whatever the status; strictly below the cap the
status alone decides, "optimized" giving "Complete" and anything else
"Continue". -/
theorem claim_C1_cap_checked_first (s : OptimizationState) (ev : ProcessEvaluation)
    (he : s.evaluation = some ev) :
    (s.max_iterations ≤ s.iteration_count →
      should_continue_optimization s = some "Complete") ∧
    (s.iteration_count < s.max_iterations →
      should_continue_optimization s =
        some (if ev.optimization_status = "optimized" then "Complete"
              else "Continue")) :=
  ⟨fun h => should_continue_of_cap s h, fun h => should_continue_of_lt s ev h he⟩

/-- C1 witness: at the cap the decision is "Complete" even though the
status is "needs_improvement"; below the cap the same status gives
"Continue". -/
theorem claim_C1_witness :
    should_continue_optimization stateAtCap = some "Complete" ∧
    should_continue_optimization stateBelowCap = some "Continue" := by
  constructor
  · exact (claim_C1_cap_checked_first stateAtCap needsImprovementVerdict rfl).1
      (by decide)
  · have h := (claim_C1_cap_checked_first stateBelowCap needsImprovementVerdict
      rfl).2 (by decide)
    rw [h]
    rfl

/-- C4: when the iteration count is positive, the evaluation step appends
the entry made of the current iteration count, the current candidate and
the evaluation stored before the step (the previous verdict, not the new
one) to the history, and only then stores the new verdict as the latest
evaluation. -/
theorem claim_C4_previous_verdict_recorded (s : OptimizationState)
    (v : ProcessEvaluation) (h : 0 < s.iteration_count) :
    (evaluate_process s v).optimization_history =
      s.optimization_history ++
        [HistoryEntry.mk s.iteration_count s.process_configuration s.evaluation] ∧
    (evaluate_process s v).evaluation = some v := by
  constructor
  · rw [evaluate_process_hist, if_pos h]
  · rfl

/-- C4 witness: evaluating at iteration 1 appends the entry carrying the
previous "needs_improvement" verdict, while the new "optimized" verdict
becomes the latest evaluation. -/
theorem claim_C4_witness :
    (evaluate_process stateBelowCap optimizedVerdict).optimization_history =
      [HistoryEntry.mk 1 "c" (some needsImprovementVerdict)] ∧
    (evaluate_process stateBelowCap optimizedVerdict).evaluation =
      some optimizedVerdict := by
  have h := claim_C4_previous_verdict_recorded stateBelowCap optimizedVerdict
    (by decide)
  simpa [stateBelowCap] using h

/-- C5: when the verdict produced at a continuation decision has status
"optimized" and the iteration count is still below the cap, the loop
halts at that decision in the DONE state — the optimizer count stays at
its current value, so no further optimizer invocation occurs — and the
continuation decision is invariant under arbitrary changes to the
score. -/
theorem claim_C5_optimized_halts (e : OptimizationState → ProcessEvaluation)
    (o : OptimizationState → String) (fuel : Nat) (s : OptimizationState)
    (ec oc : Nat) (revs : List String)
    (hst : (e s).optimization_status = "optimized")
    (hlt : s.iteration_count < s.max_iterations) :
    loopAux e o fuel s ec oc revs =
      RunResult.mk (evaluate_process s (e s)) (ec + 1) oc revs LoopStatus.done ∧
    (∀ (t : OptimizationState) (n : Int),
      should_continue_optimization (setScore t n) = should_continue_optimization t) := by
  constructor
  · apply loopAux_eq_done
    rw [should_continue_of_lt (evaluate_process s (e s)) (e s) (by simpa using hlt)
      (evaluate_process_evaluation s (e s))]
    simp [hst]
  · exact fun t n => should_continue_setScore t n

/-- C5 witness: an evaluator that immediately answers "optimized" stops
the run below the cap after a single evaluation, with no optimizer
invocation. -/
theorem claim_C5_witness :
    loopAux optimizedEvaluator stubOptimizer 2 (initState "c" 2) 0 0 [] =
      RunResult.mk (evaluate_process (initState "c" 2) optimizedVerdict) 1 0 []
        LoopStatus.done :=
  (claim_C5_optimized_halts optimizedEvaluator stubOptimizer 2 (initState "c" 2)
    0 0 [] rfl (by decide)).1

/-- C9: the continuation decision never dereferences an absent
evaluation on the states the loop reaches: every evaluation step leaves
an evaluation present, the decision is defined on every state with an
evaluation present, and no run (from any state, with any fuel) ever ends
in the evalMissing outcome. -/
theorem claim_C9_decision_total :
    (∀ s v, (evaluate_process s v).evaluation = some v) ∧
    (∀ s, s.evaluation.isSome → (should_continue_optimization s).isSome) ∧
    (∀ e o fuel s ec oc revs,
      (loopAux e o fuel s ec oc revs).status ≠ LoopStatus.evalMissing) :=
  ⟨fun _ _ => rfl, fun s h => should_continue_ne_none s h,
   fun e o fuel s ec oc revs => loop_status_not_missing e o fuel s ec oc revs⟩

/-- C9 witness: the decision is defined on a concrete state carrying an
evaluation. -/
theorem claim_C9_witness :
    (should_continue_optimization stateBelowCap).isSome = true :=
  claim_C9_decision_total.2.1 stateBelowCap (by decide)



@[simp]
theorem initState_iteration_count (c : String) (N : Nat) :
    (initState c N).iteration_count = 0 := rfl

@[simp]
theorem initState_max_iterations (c : String) (N : Nat) :
    (initState c N).max_iterations = N := rfl

@[simp]
theorem initState_hist (c : String) (N : Nat) :
    (initState c N).optimization_history = [] := rfl

/-- C2: for every cap N at least 1 and every evaluator and optimizer
behaviour, the run succeeds and the loop reaches the DONE state,
performing at most N optimizer invocations and at most N+1 evaluator
invocations; giving the loop any surplus fuel beyond N changes
nothing, so termination is forced by the continuation decision and not
by the fuel. -/
theorem claim_C2_termination_bound (e : OptimizationState → ProcessEvaluation)
    (o : OptimizationState → String) (c : String) (N : Nat) (hN : 1 ≤ N) :
    runOptimization e o c N = Except.ok (runLoop e o c N) ∧
    (runLoop e o c N).status = LoopStatus.done ∧
    (runLoop e o c N).optCalls ≤ N ∧
    (runLoop e o c N).evalCalls ≤ N + 1 ∧
    (∀ m, loopAux e o (N + m) (initState c N) 0 0 [] = runLoop e o c N) := by
  obtain ⟨k, hk, h1, h2, h3, h4, h5⟩ := loop_counts e o N (initState c N) 0 0 []
  refine ⟨?_, ?_, ?_, ?_, ?_⟩
  · unfold runOptimization
    rw [if_neg (by omega)]
  · exact loop_done_of_fuel e o N (initState c N) 0 0 [] (by simp)
  · unfold runLoop
    omega
  · unfold runLoop
    omega
  · intro m
    exact loop_fuel_stable e o m N (initState c N) 0 0 [] (by simp)

/-- C2 witness: a concrete run with cap 2 terminates in DONE within the
bounds. -/
theorem claim_C2_witness :
    (runLoop stubEvaluator stubOptimizer "c" 2).status = LoopStatus.done ∧
    (runLoop stubEvaluator stubOptimizer "c" 2).optCalls ≤ 2 ∧
    (runLoop stubEvaluator stubOptimizer "c" 2).evalCalls ≤ 3 :=
  ⟨(claim_C2_termination_bound stubEvaluator stubOptimizer "c" 2 (by decide)).2.1,
   (claim_C2_termination_bound stubEvaluator stubOptimizer "c" 2 (by decide)).2.2.1,
   (claim_C2_termination_bound stubEvaluator stubOptimizer "c" 2 (by decide)).2.2.2.1⟩

/-- C3: after any run, the final history contains exactly one entry per
optimizer invocation: its length equals the number of optimizer calls,
so the iteration-0 candidate is never recorded. -/
theorem claim_C3_history_length (e : OptimizationState → ProcessEvaluation)
    (o : OptimizationState → String) (c : String) (N : Nat) :
    (runLoop e o c N).finalState.optimization_history.length =
      (runLoop e o c N).optCalls := by
  obtain ⟨hi, hcf⟩ := loop_history e o N (initState c N) 0 0 []
    (by simp) (by simp) (by simp)
  obtain ⟨k, hk, h1, h2, h3, h4, h5⟩ := loop_counts e o N (initState c N) 0 0 []
  have hlen : (loopAux e o N (initState c N) 0 0
      []).finalState.optimization_history.length =
      (loopAux e o N (initState c N) 0 0 []).revisions.length := by
    have h6 := congrArg List.length hcf
    simpa using h6
  simp only [initState_iteration_count, List.length_nil, Nat.zero_add] at h4
  unfold runLoop
  omega

/-- C10: after any run, the iteration fields of the history are exactly
1, 2, ..., k in order, where k is the number of optimizer invocations,
and the configurations recorded in the history are exactly the
successive candidates produced by the optimizer, in order. -/
theorem claim_C10_history_enumerated (e : OptimizationState → ProcessEvaluation)
    (o : OptimizationState → String) (c : String) (N : Nat) :
    (runLoop e o c N).finalState.optimization_history.map HistoryEntry.iteration =
      List.range' 1 (runLoop e o c N).optCalls ∧
    (runLoop e o c N).finalState.optimization_history.map
        HistoryEntry.configuration = (runLoop e o c N).revisions ∧
    (runLoop e o c N).revisions.length = (runLoop e o c N).optCalls := by
  obtain ⟨hi, hcf⟩ := loop_history e o N (initState c N) 0 0 []
    (by simp) (by simp) (by simp)
  obtain ⟨k, hk, h1, h2, h3, h4, h5⟩ := loop_counts e o N (initState c N) 0 0 []
  simp only [initState_iteration_count, List.length_nil, Nat.zero_add] at h3 h4
  unfold runLoop
  refine ⟨?_, hcf, by omega⟩
  rw [hi]
  congr 1
  omega



theorem cap_one_first_decision (e : OptimizationState → ProcessEvaluation)
    (c : String) :
    should_continue_optimization
        (evaluate_process (initState c 1) (e (initState c 1))) =
      some (if (e (initState c 1)).optimization_status = "optimized" then "Complete"
            else "Continue") := by
  rw [should_continue_of_lt _ (e (initState c 1)) (by simp)
    (evaluate_process_evaluation _ _)]

theorem run_cap_one_done (e : OptimizationState → ProcessEvaluation)
    (o : OptimizationState → String) (c : String)
    (hst : (e (initState c 1)).optimization_status = "optimized") :
    runLoop e o c 1 =
      RunResult.mk (evaluate_process (initState c 1) (e (initState c 1))) 1 0 []
        LoopStatus.done := by
  have hdec : should_continue_optimization
      (evaluate_process (initState c 1) (e (initState c 1))) = some "Complete" := by
    rw [cap_one_first_decision e c]
    simp [hst]
  exact loopAux_eq_done e o 1 (initState c 1) 0 0 [] hdec

theorem run_cap_one_needs (e : OptimizationState → ProcessEvaluation)
    (o : OptimizationState → String) (c : String)
    (hst : (e (initState c 1)).optimization_status ≠ "optimized") :
    (runLoop e o c 1).evalCalls = 2 ∧ (runLoop e o c 1).optCalls = 1 ∧
    (runLoop e o c 1).finalState.iteration_count = 1 ∧
    (runLoop e o c 1).status = LoopStatus.done := by
  have hdec : should_continue_optimization
      (evaluate_process (initState c 1) (e (initState c 1))) = some "Continue" := by
    rw [cap_one_first_decision e c]
    simp [hst]
  have hA : runLoop e o c 1 =
      loopAux e o 0
        (optimize_process (evaluate_process (initState c 1) (e (initState c 1)))
          (o (evaluate_process (initState c 1) (e (initState c 1)))))
        1 1 [o (evaluate_process (initState c 1) (e (initState c 1)))] :=
    loopAux_eq_continue e o 0 (initState c 1) 0 0 [] hdec
  have hB : should_continue_optimization
      (evaluate_process
        (optimize_process (evaluate_process (initState c 1) (e (initState c 1)))
          (o (evaluate_process (initState c 1) (e (initState c 1)))))
        (e (optimize_process (evaluate_process (initState c 1) (e (initState c 1)))
          (o (evaluate_process (initState c 1) (e (initState c 1))))))) =
      some "Complete" := should_continue_of_cap _ (by simp)
  have hC := loopAux_eq_done e o 0
    (optimize_process (evaluate_process (initState c 1) (e (initState c 1)))
      (o (evaluate_process (initState c 1) (e (initState c 1)))))
    1 1 [o (evaluate_process (initState c 1) (e (initState c 1)))] hB
  rw [hA, hC]
  exact ⟨rfl, rfl, rfl, rfl⟩

/-- C6: with cap 1 and an evaluator that always answers
"needs_improvement", the run performs exactly two evaluator invocations
and exactly one optimizer invocation, and terminates in DONE with final
iteration count 1. -/
theorem claim_C6_cap_one_trace (e : OptimizationState → ProcessEvaluation)
    (o : OptimizationState → String) (c : String)
    (he : ∀ s, (e s).optimization_status = "needs_improvement") :
    (runLoop e o c 1).evalCalls = 2 ∧ (runLoop e o c 1).optCalls = 1 ∧
    (runLoop e o c 1).finalState.iteration_count = 1 ∧
    (runLoop e o c 1).status = LoopStatus.done :=
  run_cap_one_needs e o c (by rw [he]; simp)

/-- C6 witness: the concrete always-needs-improvement evaluator at cap 1
gives two evaluator calls and one optimizer call. -/
theorem claim_C6_witness :
    (runLoop stubEvaluator stubOptimizer "c" 1).evalCalls = 2 ∧
    (runLoop stubEvaluator stubOptimizer "c" 1).optCalls = 1 :=
  ⟨(claim_C6_cap_one_trace stubEvaluator stubOptimizer "c" (fun _ => rfl)).1,
   (claim_C6_cap_one_trace stubEvaluator stubOptimizer "c" (fun _ => rfl)).2.1⟩

/-- C7 counterexample: with cap 1 and an evaluator that always returns
"needs_improvement", the run performs two evaluator invocations and one
optimizer invocation — not one evaluator invocation and none, as the
claim states for every returned status. -/
theorem claim_C7_counterexample :
    ¬ ((runLoop stubEvaluator stubOptimizer "c" 1).evalCalls = 1 ∧
       (runLoop stubEvaluator stubOptimizer "c" 1).optCalls = 0) := by
  decide

/-- C7 (amended): with cap 1 the first evaluation's status decides:
"optimized" stops the run after exactly one evaluator invocation and no
optimizer invocation; any other status allows exactly one
optimize-and-re-evaluate cycle — two evaluator invocations, one optimizer
invocation, final iteration count 1. -/
theorem claim_C7_amended_cap_one (e : OptimizationState → ProcessEvaluation)
    (o : OptimizationState → String) (c : String) :
    ((e (initState c 1)).optimization_status = "optimized" →
      (runLoop e o c 1).evalCalls = 1 ∧ (runLoop e o c 1).optCalls = 0 ∧
      (runLoop e o c 1).status = LoopStatus.done) ∧
    ((e (initState c 1)).optimization_status ≠ "optimized" →
      (runLoop e o c 1).evalCalls = 2 ∧ (runLoop e o c 1).optCalls = 1 ∧
      (runLoop e o c 1).finalState.iteration_count = 1 ∧
      (runLoop e o c 1).status = LoopStatus.done) := by
  constructor
  · intro hst
    rw [run_cap_one_done e o c hst]
    exact ⟨rfl, rfl, rfl⟩
  · exact run_cap_one_needs e o c

/-- C7 witness for the amended claim: both branches at concrete
evaluators. -/
theorem claim_C7_amended_witness :
    (runLoop optimizedEvaluator stubOptimizer "c" 1).evalCalls = 1 ∧
    (runLoop stubEvaluator stubOptimizer "c" 1).evalCalls = 2 :=
  ⟨((claim_C7_amended_cap_one optimizedEvaluator stubOptimizer "c").1 rfl).1,
   ((claim_C7_amended_cap_one stubEvaluator stubOptimizer "c").2 (by decide)).1⟩



/-- C8: every verdict accepted at the Evaluator boundary has its integer
score in [1,10] and its status in the closed set {"optimized",
"needs_improvement"}, both taken unchanged from the raw response (never
repaired, clamped, or defaulted); a response missing its status or
carrying an out-of-range score is rejected as a SchemaViolation, and a
rejected response aborts the fallible run with that error surfaced to
the caller. -/
theorem claim_C8_schema_boundary :
    (∀ raw v, parseProcessEvaluation raw = Except.ok v →
      1 ≤ v.performance_score ∧ v.performance_score ≤ 10 ∧
      (v.optimization_status = "optimized" ∨
        v.optimization_status = "needs_improvement") ∧
      raw.performance_score = some v.performance_score ∧
      raw.optimization_status = some v.optimization_status) ∧
    (∀ raw, raw.optimization_status = none →
      parseProcessEvaluation raw = Except.error "SchemaViolation") ∧
    (∀ raw n, raw.performance_score = some n → (n < 1 ∨ 10 < n) →
      parseProcessEvaluation raw = Except.error "SchemaViolation") ∧
    (∀ re o fuel s ec oc revs err,
      parseProcessEvaluation (re s) = Except.error err →
      loopAuxE re o fuel s ec oc revs = Except.error err) := by
  refine ⟨?_, ?_, ?_, ?_⟩
  · rintro ⟨ps, wq, eff, st, rec⟩ v hok
    rcases ps with _ | score <;> rcases wq with _ | wqv <;>
      rcases eff with _ | effv <;> rcases st with _ | stv <;>
      rcases rec with _ | recv <;> simp [parseProcessEvaluation] at hok
    split_ifs at hok with h1 h2
    · simp at hok
      subst hok
      exact ⟨h1.1, h1.2, h2, rfl, rfl⟩
  · rintro ⟨ps, wq, eff, st, rec⟩ hst
    simp at hst
    subst hst
    rcases ps with _ | score <;> rcases wq with _ | wqv <;>
      rcases eff with _ | effv <;> rcases rec with _ | recv <;>
      simp [parseProcessEvaluation]
  · rintro ⟨ps, wq, eff, st, rec⟩ n hn hrange
    simp at hn
    subst hn
    rcases wq with _ | wqv <;> rcases eff with _ | effv <;>
      rcases st with _ | stv <;> rcases rec with _ | recv <;>
      simp [parseProcessEvaluation]
    intro h1 h2
    exfalso
    omega
  · intro re o fuel s ec oc revs err hp
    cases fuel <;> · unfold loopAuxE; rw [hp]

/-- C8 witness: a well-formed response is accepted with its score
constraint holding; a response missing its status and one with score 11
are rejected; a run driven by a malformed evaluator aborts with the
SchemaViolation surfaced. -/
theorem claim_C8_witness :
    (1 ≤ (ProcessEvaluation.mk 7 "wq" "eff" "needs_improvement"
      "rec").performance_score) ∧
    parseProcessEvaluation rawMissingStatus = Except.error "SchemaViolation" ∧
    parseProcessEvaluation rawOutOfRange = Except.error "SchemaViolation" ∧
    loopAuxE badRawEvaluator stubOptimizer 3 (initState "c" 3) 0 0 [] =
      Except.error "SchemaViolation" :=
  ⟨(claim_C8_schema_boundary.1 rawGood
      (ProcessEvaluation.mk 7 "wq" "eff" "needs_improvement" "rec") rfl).1,
   claim_C8_schema_boundary.2.1 rawMissingStatus rfl,
   claim_C8_schema_boundary.2.2.1 rawOutOfRange 11 rfl (by decide),
   claim_C8_schema_boundary.2.2.2 badRawEvaluator stubOptimizer 3 (initState "c" 3)
     0 0 [] "SchemaViolation" rfl⟩

end TreatmentOptimization
